import Mathlib

/-!
Verification of the BILIBILI-Helper update-aggregation pipeline
(`src/app.py` and `src/bili_debug.py`).

The network is modelled by oracles: a function from page number (and, for
per-creator upload listings, the creator mid) to the outcome of the HTTP
fetch and JSON parse — `.error` for a transport-level exception, `.ok` for
a parsed `{code, message, data}` payload.  The page loops are instrumented
with the list of page numbers actually requested, so that pagination
bounds and early-termination behaviour are provable facts about the
definitions.
-/

namespace BilibiliHelper

/-- Raw video item from one page of the upload-listing API (an entry of
`vlist`).  `created` models `int(item.get("created") or 0)` at
src/app.py:332: a missing or falsy field is already collapsed to `0`. -/
structure VideoItem where
  created : Int
  title : String
  bvid : String
  author : String
deriving Repr, DecidableEq

/-- A Video Update record built by `fetch_creator_updates`
(src/app.py:335-348).  The human-readable `created` display string (a
`strftime` rendering of `created_ts`) is presentation-only and omitted;
`created_ts`, stored by the code as the decimal string of the integer and
parsed back with `int(...)` before sorting, is kept as that integer. -/
structure Update where
  title : String
  created_ts : Int
  bvid : String
  author : String
  link : String
deriving Repr, DecidableEq

/-- One entry of the followed-creators list produced by
`fetch_followings_list` (src/app.py:283-289). -/
structure Following where
  name : String
  mid : String
  special : String
deriving Repr, DecidableEq

/-- A Video Update annotated with its creator, as appended to the merged
feed by `fetch_following_updates` (src/app.py:400-408). -/
structure FeedEntry where
  title : String
  created_ts : Int
  bvid : String
  author : String
  link : String
  creator : String
  creator_mid : String
  special : String
deriving Repr, DecidableEq

/-- Per-creator status record appended by `fetch_following_updates`
(src/app.py:373-398). -/
structure Status where
  creator : String
  creator_mid : String
  status : String
  count : Nat
deriving Repr, DecidableEq

/-- The `{code, message, data}` JSON payload of the upstream API.  `data`
is already projected to the collection the caller extracts from it
(`(data.get("list") or {}).get("vlist") or []` at src/app.py:328, or
`data.get("list") or []` at src/app.py:277); a missing or falsy value is
`none`. -/
structure BiliPayload (α : Type) where
  code : Option Int
  message : Option String
  data : Option α
deriving Repr, DecidableEq

/-- `fetch_bili_json` (src/app.py:234-247) after the HTTP fetch and JSON
parse: when `payload.get("code") != 0` it raises
`RuntimeError(payload.get("message") or "请求失败")`, otherwise it returns
`payload.get("data") or {}` — `defaultData` stands for that falsy
default. -/
def fetch_bili_json {α : Type} (defaultData : α) (payload : BiliPayload α) :
    Except String α :=
  if payload.code ≠ some 0 then
    .error (match payload.message with
      | some m => if m = "" then "请求失败" else m
      | none => "请求失败")
  else
    .ok (payload.data.getD defaultData)

/-- One page request: the network fetch and JSON parse (`pages page`,
transport exceptions as `.error`) composed with `fetch_bili_json` and the
caller's falsy-default projection of `data`. -/
def page_fetch {α : Type} (defaultData : α)
    (pages : Nat → Except String (BiliPayload α)) (page : Nat) :
    Except String α :=
  match pages page with
  | .error e => .error e
  | .ok payload => fetch_bili_json defaultData payload

/-- Raw entry of the relation API `list` field (src/app.py:280-289);
`special` models `item.get("special")`. -/
structure FollowItem where
  uname : String
  mid : String
  special : Option Int
deriving Repr, DecidableEq

/-- Python's `str.strip()`: drop whitespace from both ends.  Defined by
structural recursion on the character list so that concrete runs
evaluate. -/
def py_strip (s : String) : String :=
  ⟨((s.data.dropWhile Char.isWhitespace).reverse.dropWhile
    Char.isWhitespace).reverse⟩

/-- Conversion of one raw relation entry to a Creator Reference
(src/app.py:281-289). -/
def toFollowing (item : FollowItem) : Following :=
  { name := if py_strip item.uname = "" then "未知UP主" else py_strip item.uname
    mid := if py_strip item.mid = "" then "未知" else py_strip item.mid
    special := if item.special = some 1 then "1" else "0" }

/-- The page loop of `fetch_followings_list` (src/app.py:265-290),
instrumented with the trace of page numbers requested: a fetch exception
propagates (discarding partial results), an empty page stops the loop,
otherwise the page's entries are appended and the next page requested. -/
def fetch_followings_list_loop
    (pages : Nat → Except String (BiliPayload (List FollowItem))) :
    Nat → Nat → List Following → List Nat →
      List Nat × Except String (List Following)
  | 0, _, results, tr => (tr, .ok results)
  | fuel + 1, page, results, tr =>
    match page_fetch [] pages page with
    | .error e => (tr ++ [page], .error e)
    | .ok followings =>
      if followings = [] then (tr ++ [page], .ok results)
      else
        fetch_followings_list_loop pages fuel (page + 1)
          (results ++ followings.map toFollowing) (tr ++ [page])

/-- `fetch_followings_list` (src/app.py:259-290): pages `1..max_pages`,
stopping early on an empty page.  First component: the trace of page
numbers requested; second: the returned list, or the propagated error. -/
def fetch_followings_list
    (pages : Nat → Except String (BiliPayload (List FollowItem)))
    (max_pages : Nat) : List Nat × Except String (List Following) :=
  fetch_followings_list_loop pages max_pages 1 [] []

/-- Construction of one Video Update from a raw item
(src/app.py:335-348).  The `link` uses the raw (untrimmed) `bvid`, the
`bvid` field the trimmed one, exactly as in the code. -/
def mk_update (item : VideoItem) : Update :=
  { title := if py_strip item.title = "" then "未命名视频" else py_strip item.title
    created_ts := item.created
    bvid := py_strip item.bvid
    author := py_strip item.author
    link := if item.bvid = "" then "" else
      "https://www.bilibili.com/video/" ++ item.bvid }

/-- The inner item loop of `fetch_creator_updates` (src/app.py:331-348):
collect items in page order, breaking at the first item whose timestamp
is under the cutoff. -/
def collect_page_items (cutoff_ts : Int) : List VideoItem → List Update
  | [] => []
  | item :: rest =>
    if item.created < cutoff_ts then []
    else mk_update item :: collect_page_items cutoff_ts rest

/-- Models `int(vlist[-1].get("created") or 0)` (src/app.py:349). -/
def last_created (vlist : List VideoItem) : Int :=
  (vlist.getLast?.map VideoItem.created).getD 0

/-- The page loop of `fetch_creator_updates` (src/app.py:317-351),
instrumented with the trace of pages requested: a fetch exception
propagates (discarding partial results); an empty `vlist` stops the loop;
otherwise the page's in-window prefix is appended and, unless the page's
last item is already older than the cutoff, the next page is requested. -/
def fetch_creator_updates_loop
    (pages : Nat → Except String (BiliPayload (List VideoItem)))
    (cutoff_ts : Int) :
    Nat → Nat → List Update → List Nat → List Nat × Except String (List Update)
  | 0, _, updates, tr => (tr, .ok updates)
  | fuel + 1, page, updates, tr =>
    match page_fetch [] pages page with
    | .error e => (tr ++ [page], .error e)
    | .ok vlist =>
      if vlist = [] then (tr ++ [page], .ok updates)
      else
        let updates2 := updates ++ collect_page_items cutoff_ts vlist
        if last_created vlist < cutoff_ts then (tr ++ [page], .ok updates2)
        else fetch_creator_updates_loop pages cutoff_ts fuel (page + 1)
          updates2 (tr ++ [page])

/-- `fetch_creator_updates` (src/app.py:310-351): page through one
creator's uploads, collecting items at or after the cutoff.  First
component: the trace of pages requested; second: the collected Video
Updates, or the propagated error. -/
def fetch_creator_updates
    (pages : Nat → Except String (BiliPayload (List VideoItem)))
    (cutoff_ts : Int) (max_pages : Nat) :
    List Nat × Except String (List Update) :=
  fetch_creator_updates_loop pages cutoff_ts max_pages 1 [] []

/-- The cutoff computation of `fetch_following_updates`
(src/app.py:363): `int(datetime.now().timestamp()) -
max(interval_hours, 1) * 3600`. -/
def app_cutoff_ts (now interval_hours : Int) : Int :=
  now - max interval_hours 1 * 3600

/-- The cutoff computation of the debug script `main`
(src/bili_debug.py:66): `int(time.time()) - max(args.hours, 1) * 3600`. -/
def debug_cutoff_ts (now hours : Int) : Int :=
  now - max hours 1 * 3600

/-- Annotation of one Video Update with its creator,
`{**update, "creator": ..., "creator_mid": ..., "special": ...}`
(src/app.py:400-408). -/
def annotate (u : Update) (item : Following) : FeedEntry :=
  { title := u.title
    created_ts := u.created_ts
    bvid := u.bvid
    author := u.author
    link := u.link
    creator := item.name
    creator_mid := item.mid
    special := item.special }

/-- The sort relation of `updates.sort(key=lambda x:
int(x.get("created_ts", "0")), reverse=True)` (src/app.py:409):
descending by `created_ts`. -/
def feedLE (a b : FeedEntry) : Prop :=
  b.created_ts ≤ a.created_ts

instance : DecidableRel feedLE :=
  fun a b => inferInstanceAs (Decidable (b.created_ts ≤ a.created_ts))

instance : IsTotal FeedEntry feedLE :=
  ⟨fun a b => le_total b.created_ts a.created_ts⟩

instance : IsTrans FeedEntry feedLE :=
  ⟨fun _ _ _ hab hbc => le_trans hbc hab⟩

/-- The per-creator loop of `fetch_following_updates`
(src/app.py:364-408): each creator's fetch is wrapped in `try/except`; a
raise records an `api_failed` status (count 0) and contributes nothing; a
successful fetch records `no_updates` (count 0) or `updated` (count =
number of items) and appends the annotated items, in iteration order. -/
def process_followings
    (creator_pages : String → Nat → Except String (BiliPayload (List VideoItem)))
    (cutoff_ts : Int) : List Following → List FeedEntry × List Status
  | [] => ([], [])
  | item :: rest =>
    let tail := process_followings creator_pages cutoff_ts rest
    match (fetch_creator_updates (creator_pages item.mid) cutoff_ts 2).2 with
    | .error _ =>
      (tail.1, ⟨item.name, item.mid, "api_failed", 0⟩ :: tail.2)
    | .ok creator_updates =>
      let st : Status :=
        if creator_updates = [] then ⟨item.name, item.mid, "no_updates", 0⟩
        else ⟨item.name, item.mid, "updated", creator_updates.length⟩
      (creator_updates.map (fun u => annotate u item) ++ tail.1, st :: tail.2)

/-- `fetch_following_updates` (src/app.py:354-412): list the followings
(2 pages), compute the cutoff, run the per-creator loop (2 pages per
creator), sort the merged feed descending by `created_ts` — Python's
stable `list.sort(..., reverse=True)`, modelled extensionally by the
stable insertion sort under `feedLE` — and finally apply
`updates[: max(limit, 0)]` when a limit is given. -/
def fetch_following_updates
    (following_pages : Nat → Except String (BiliPayload (List FollowItem)))
    (creator_pages : String → Nat → Except String (BiliPayload (List VideoItem)))
    (now interval_hours : Int) (limit : Option Int) :
    Except String (List FeedEntry × List Status) :=
  match (fetch_followings_list following_pages 2).2 with
  | .error e => .error e
  | .ok followings =>
    let cutoff_ts := app_cutoff_ts now interval_hours
    let pair := process_followings creator_pages cutoff_ts followings
    let sorted := List.insertionSort feedLE pair.1
    match limit with
    | none => .ok (sorted, pair.2)
    | some l => .ok (sorted.take (max l 0).toNat, pair.2)

/-- The feed contribution of one creator inside the per-creator loop:
empty on a raised fetch, otherwise the annotated collected items. -/
def creator_contribution
    (creator_pages : String → Nat → Except String (BiliPayload (List VideoItem)))
    (cutoff_ts : Int) (item : Following) : List FeedEntry :=
  match (fetch_creator_updates (creator_pages item.mid) cutoff_ts 2).2 with
  | .error _ => []
  | .ok l => l.map (fun u => annotate u item)

/-- The status recorded for one creator inside the per-creator loop. -/
def creator_status
    (creator_pages : String → Nat → Except String (BiliPayload (List VideoItem)))
    (cutoff_ts : Int) (item : Following) : Status :=
  match (fetch_creator_updates (creator_pages item.mid) cutoff_ts 2).2 with
  | .error _ => ⟨item.name, item.mid, "api_failed", 0⟩
  | .ok l =>
    if l = [] then ⟨item.name, item.mid, "no_updates", 0⟩
    else ⟨item.name, item.mid, "updated", l.length⟩

theorem process_followings_fst
    (creator_pages : String → Nat → Except String (BiliPayload (List VideoItem)))
    (cutoff_ts : Int) :
    ∀ fs : List Following,
      (process_followings creator_pages cutoff_ts fs).1
        = (fs.map (creator_contribution creator_pages cutoff_ts)).flatten := by
  intro fs
  induction fs with
  | nil => rfl
  | cons item rest ih =>
    simp only [process_followings, List.map_cons, List.flatten_cons, ← ih,
      creator_contribution]
    cases h : (fetch_creator_updates (creator_pages item.mid) cutoff_ts 2).2 with
    | error e => simp
    | ok l => by_cases hl : l = [] <;> simp [hl]

theorem process_followings_snd
    (creator_pages : String → Nat → Except String (BiliPayload (List VideoItem)))
    (cutoff_ts : Int) :
    ∀ fs : List Following,
      (process_followings creator_pages cutoff_ts fs).2
        = fs.map (creator_status creator_pages cutoff_ts) := by
  intro fs
  induction fs with
  | nil => rfl
  | cons item rest ih =>
    simp only [process_followings, List.map_cons, ← ih, creator_status]
    cases h : (fetch_creator_updates (creator_pages item.mid) cutoff_ts 2).2 with
    | error e => simp
    | ok l => by_cases hl : l = [] <;> simp [hl]

/-- The merged, sorted, uncapped feed of a run over a given followings
list. -/
def full_feed
    (creator_pages : String → Nat → Except String (BiliPayload (List VideoItem)))
    (cutoff_ts : Int) (fs : List Following) :
    List FeedEntry :=
  List.insertionSort feedLE
    ((fs.map (creator_contribution creator_pages cutoff_ts)).flatten)

theorem fetch_following_updates_none
    (following_pages : Nat → Except String (BiliPayload (List FollowItem)))
    (creator_pages : String → Nat → Except String (BiliPayload (List VideoItem)))
    (now interval_hours : Int) (fs : List Following)
    (hfs : (fetch_followings_list following_pages 2).2 = .ok fs) :
    fetch_following_updates following_pages creator_pages now interval_hours none
      = .ok (full_feed creator_pages (app_cutoff_ts now interval_hours) fs,
          fs.map (creator_status creator_pages (app_cutoff_ts now interval_hours))) := by
  simp only [fetch_following_updates, hfs, full_feed,
    process_followings_fst, process_followings_snd]

theorem fetch_following_updates_some
    (following_pages : Nat → Except String (BiliPayload (List FollowItem)))
    (creator_pages : String → Nat → Except String (BiliPayload (List VideoItem)))
    (now interval_hours : Int) (l : Int) (fs : List Following)
    (hfs : (fetch_followings_list following_pages 2).2 = .ok fs) :
    fetch_following_updates following_pages creator_pages now interval_hours (some l)
      = .ok ((full_feed creator_pages (app_cutoff_ts now interval_hours) fs).take
            (max l 0).toNat,
          fs.map (creator_status creator_pages (app_cutoff_ts now interval_hours))) := by
  simp only [fetch_following_updates, hfs, full_feed,
    process_followings_fst, process_followings_snd]

theorem collect_page_items_eq_takeWhile (cutoff_ts : Int) :
    ∀ vlist : List VideoItem,
      collect_page_items cutoff_ts vlist
        = (vlist.takeWhile fun item => decide (cutoff_ts ≤ item.created)).map
            mk_update := by
  intro vlist
  induction vlist with
  | nil => rfl
  | cons item rest ih =>
    by_cases h : item.created < cutoff_ts
    · simp [collect_page_items, h, List.takeWhile_cons, not_le.mpr h]
    · simp [collect_page_items, h, List.takeWhile_cons, not_lt.mp h, ih]

theorem collect_page_items_created (cutoff_ts : Int) :
    ∀ (vlist : List VideoItem) (u : Update),
      u ∈ collect_page_items cutoff_ts vlist → cutoff_ts ≤ u.created_ts := by
  intro vlist
  induction vlist with
  | nil => intro u hu; cases hu
  | cons item rest ih =>
    intro u hu
    by_cases h : item.created < cutoff_ts
    · simp [collect_page_items, h] at hu
    · simp only [collect_page_items, if_neg h, List.mem_cons] at hu
      rcases hu with rfl | hu
      · exact not_lt.mp h
      · exact ih u hu

theorem fetch_creator_updates_loop_created
    (pages : Nat → Except String (BiliPayload (List VideoItem))) (cutoff_ts : Int) :
    ∀ (fuel page : Nat) (acc : List Update) (tr : List Nat)
      (res : List Update),
      (fetch_creator_updates_loop pages cutoff_ts fuel page acc tr).2 = .ok res →
      (∀ u ∈ acc, cutoff_ts ≤ u.created_ts) →
      ∀ u ∈ res, cutoff_ts ≤ u.created_ts := by
  intro fuel
  induction fuel with
  | zero =>
    intro page acc tr res hres hacc
    simp only [fetch_creator_updates_loop, Except.ok.injEq] at hres
    exact hres ▸ hacc
  | succ fuel ih =>
    intro page acc tr res hres hacc
    simp only [fetch_creator_updates_loop] at hres
    cases hpf : page_fetch [] pages page with
    | error e => simp [hpf] at hres
    | ok vlist =>
      rw [hpf] at hres
      by_cases hv : vlist = []
      · simp only [if_pos hv, Except.ok.injEq] at hres
        exact hres ▸ hacc
      · simp only [if_neg hv] at hres
        have hacc2 : ∀ u ∈ acc ++ collect_page_items cutoff_ts vlist,
            cutoff_ts ≤ u.created_ts := by
          intro u hu
          rcases List.mem_append.mp hu with h | h
          · exact hacc u h
          · exact collect_page_items_created cutoff_ts vlist u h
        by_cases hlast : last_created vlist < cutoff_ts
        · simp only [if_pos hlast, Except.ok.injEq] at hres
          exact hres ▸ hacc2
        · simp only [if_neg hlast] at hres
          exact ih (page + 1) _ _ res hres hacc2

theorem fetch_creator_updates_created
    (pages : Nat → Except String (BiliPayload (List VideoItem))) (cutoff_ts : Int)
    (max_pages : Nat) (res : List Update)
    (hres : (fetch_creator_updates pages cutoff_ts max_pages).2 = .ok res) :
    ∀ u ∈ res, cutoff_ts ≤ u.created_ts :=
  fetch_creator_updates_loop_created pages cutoff_ts max_pages 1 [] [] res hres
    (by intro u hu; cases hu)

theorem creator_contribution_created
    (creator_pages : String → Nat → Except String (BiliPayload (List VideoItem)))
    (cutoff_ts : Int) (item : Following) :
    ∀ e ∈ creator_contribution creator_pages cutoff_ts item,
      cutoff_ts ≤ e.created_ts := by
  intro e he
  unfold creator_contribution at he
  cases h : (fetch_creator_updates (creator_pages item.mid) cutoff_ts 2).2 with
  | error _ => simp [h] at he
  | ok l =>
    rw [h] at he
    obtain ⟨u, hu, rfl⟩ := List.mem_map.mp he
    exact fetch_creator_updates_created _ cutoff_ts 2 l h u hu

theorem filter_orderedInsert_of_neg {α : Type} (r : α → α → Prop)
    [DecidableRel r] (p : α → Bool) (a : α) (ha : p a = false) :
    ∀ l : List α, (List.orderedInsert r a l).filter p = l.filter p := by
  intro l
  induction l with
  | nil => simp [ha]
  | cons b t ih =>
    by_cases hr : r a b
    · simp [List.orderedInsert, hr, ha]
    · simp only [List.orderedInsert, if_neg hr, List.filter_cons]
      by_cases hb : p b
      · simp [hb, ih]
      · simp only [Bool.not_eq_true] at hb
        simp [hb, ih]

theorem filter_orderedInsert_of_pos {α : Type} (r : α → α → Prop)
    [DecidableRel r] (p : α → Bool) (a : α) (ha : p a = true)
    (hcompat : ∀ b, ¬r a b → p b = false) :
    ∀ l : List α, (List.orderedInsert r a l).filter p = a :: l.filter p := by
  intro l
  induction l with
  | nil => simp [ha]
  | cons b t ih =>
    by_cases hr : r a b
    · simp [List.orderedInsert, hr, ha]
    · have hb := hcompat b hr
      simp [List.orderedInsert, hr, hb, ih]

/-- Stability of the descending sort: the subsequence of entries with any
fixed `created_ts` is untouched, i.e. ties keep their insertion order. -/
theorem insertionSort_filter_created_ts (k : Int) :
    ∀ l : List FeedEntry,
      (List.insertionSort feedLE l).filter (fun e => decide (e.created_ts = k))
        = l.filter (fun e => decide (e.created_ts = k)) := by
  intro l
  induction l with
  | nil => rfl
  | cons a t ih =>
    show (List.orderedInsert feedLE a (List.insertionSort feedLE t)).filter _ = _
    by_cases hk : a.created_ts = k
    · rw [filter_orderedInsert_of_pos feedLE _ a (by simp [hk])
        (fun b hb => by
          simp only [feedLE, not_le] at hb
          simp only [decide_eq_false_iff_not]
          omega)]
      simp [ih, hk]
    · rw [filter_orderedInsert_of_neg feedLE _ a (by simp [hk])]
      simp [ih, hk]

theorem flatten_map_eraseIdx {α β : Type} (g : α → List β) :
    ∀ (l : List α) (j : Nat) (x : α),
      l[j]? = some x → g x = [] →
      (l.map g).flatten = ((l.eraseIdx j).map g).flatten := by
  intro l
  induction l with
  | nil => intro j x hx; simp at hx
  | cons a t ih =>
    intro j x hx hgx
    cases j with
    | zero =>
      simp only [List.getElem?_cons_zero, Option.some.injEq] at hx
      subst hx
      simp [hgx]
    | succ j =>
      simp only [List.getElem?_cons_succ] at hx
      simp [ih j x hx hgx]

/-- The per-creator loop never lets a creator's exception escape: given a
successful followings listing, `fetch_following_updates` always returns a
result, whatever the per-creator page oracle does. -/
theorem fetch_following_updates_total (following_pages) (creator_pages)
    (now interval_hours : Int) (limit : Option Int) (fs : List Following)
    (hfs : (fetch_followings_list following_pages 2).2 = .ok fs) :
    ∃ out, fetch_following_updates following_pages creator_pages now
      interval_hours limit = .ok out := by
  cases limit with
  | none => exact ⟨_, fetch_following_updates_none _ _ _ _ _ hfs⟩
  | some l => exact ⟨_, fetch_following_updates_some _ _ _ _ l _ hfs⟩

theorem fetch_creator_updates_loop_trace
    (pages : Nat → Except String (BiliPayload (List VideoItem)))
    (cutoff_ts : Int) :
    ∀ (fuel page : Nat) (acc : List Update) (tr0 : List Nat),
      ∃ k, k ≤ fuel ∧
        (fetch_creator_updates_loop pages cutoff_ts fuel page acc tr0).1
          = tr0 ++ List.range' page k ∧
        (∀ j, j + 1 < k → ∃ vlist, page_fetch [] pages (page + j) = .ok vlist ∧
          vlist ≠ [] ∧ cutoff_ts ≤ last_created vlist) := by
  intro fuel
  induction fuel with
  | zero =>
    intro page acc tr0
    exact ⟨0, le_refl 0, by simp [fetch_creator_updates_loop], by omega⟩
  | succ fuel ih =>
    intro page acc tr0
    cases hpf : page_fetch [] pages page with
    | error e =>
      refine ⟨1, by omega, ?_, by omega⟩
      simp [fetch_creator_updates_loop, hpf, List.range'_succ]
    | ok vlist =>
      by_cases hv : vlist = []
      · refine ⟨1, by omega, ?_, by omega⟩
        simp [fetch_creator_updates_loop, hpf, hv, List.range'_succ]
      · by_cases hlast : last_created vlist < cutoff_ts
        · refine ⟨1, by omega, ?_, by omega⟩
          simp [fetch_creator_updates_loop, hpf, hv, hlast, List.range'_succ]
        · obtain ⟨k, hk, htr, hcond⟩ :=
            ih (page + 1) (acc ++ collect_page_items cutoff_ts vlist)
              (tr0 ++ [page])
          refine ⟨k + 1, by omega, ?_, ?_⟩
          · simp only [fetch_creator_updates_loop, hpf, if_neg hv, if_neg hlast]
            rw [htr, List.range'_succ, List.append_assoc]
            rfl
          · intro j hj
            cases j with
            | zero => exact ⟨vlist, by simpa using hpf, hv, not_lt.mp hlast⟩
            | succ j =>
              obtain ⟨w, hw1, hw2, hw3⟩ := hcond j (by omega)
              have heq : page + (j + 1) = page + 1 + j := by omega
              rw [heq]
              exact ⟨w, hw1, hw2, hw3⟩

theorem fetch_creator_updates_trace
    (pages : Nat → Except String (BiliPayload (List VideoItem)))
    (cutoff_ts : Int) (max_pages : Nat) :
    ∃ k, k ≤ max_pages ∧
      (fetch_creator_updates pages cutoff_ts max_pages).1 = List.range' 1 k ∧
      (∀ j, j + 1 < k → ∃ vlist, page_fetch [] pages (1 + j) = .ok vlist ∧
        vlist ≠ [] ∧ cutoff_ts ≤ last_created vlist) := by
  obtain ⟨k, hk, htr, hcond⟩ :=
    fetch_creator_updates_loop_trace pages cutoff_ts max_pages 1 [] []
  exact ⟨k, hk, by simpa [fetch_creator_updates] using htr, hcond⟩

theorem fetch_followings_list_loop_trace
    (pages : Nat → Except String (BiliPayload (List FollowItem))) :
    ∀ (fuel page : Nat) (acc : List Following) (tr0 : List Nat),
      ∃ k, k ≤ fuel ∧
        (fetch_followings_list_loop pages fuel page acc tr0).1
          = tr0 ++ List.range' page k ∧
        (∀ j, j + 1 < k →
          ∃ fl, page_fetch [] pages (page + j) = .ok fl ∧ fl ≠ []) ∧
        (∀ e, k ≠ 0 → page_fetch [] pages (page + (k - 1)) = .error e →
          (fetch_followings_list_loop pages fuel page acc tr0).2 = .error e) := by
  intro fuel
  induction fuel with
  | zero =>
    intro page acc tr0
    exact ⟨0, le_refl 0, by simp [fetch_followings_list_loop], by omega,
      fun e h0 _ => absurd rfl h0⟩
  | succ fuel ih =>
    intro page acc tr0
    cases hpf : page_fetch [] pages page with
    | error e0 =>
      refine ⟨1, by omega, ?_, by omega, ?_⟩
      · simp [fetch_followings_list_loop, hpf, List.range'_succ]
      · intro e _ he
        simp only [Nat.sub_self, Nat.add_zero] at he
        rw [hpf] at he
        cases he
        simp [fetch_followings_list_loop, hpf]
    | ok fl =>
      by_cases hf : fl = []
      · refine ⟨1, by omega, ?_, by omega, ?_⟩
        · simp [fetch_followings_list_loop, hpf, hf, List.range'_succ]
        · intro e _ he
          simp only [Nat.sub_self, Nat.add_zero] at he
          rw [hpf] at he
          cases he
      · obtain ⟨k, hk, htr, hcond, herr⟩ :=
          ih (page + 1) (acc ++ fl.map toFollowing) (tr0 ++ [page])
        refine ⟨k + 1, by omega, ?_, ?_, ?_⟩
        · simp only [fetch_followings_list_loop, hpf, if_neg hf]
          rw [htr, List.range'_succ, List.append_assoc]
          rfl
        · intro j hj
          cases j with
          | zero => exact ⟨fl, by simpa using hpf, hf⟩
          | succ j =>
            obtain ⟨w, hw1, hw2⟩ := hcond j (by omega)
            have heq : page + (j + 1) = page + 1 + j := by omega
            rw [heq]
            exact ⟨w, hw1, hw2⟩
        · intro e _ he
          cases hk0 : k with
          | zero =>
            subst hk0
            have heq : page + (0 + 1 - 1) = page := by omega
            rw [heq, hpf] at he
            cases he
          | succ k2 =>
            subst hk0
            have : page + (k2 + 1 + 1 - 1) = page + 1 + (k2 + 1 - 1) := by omega
            rw [this] at he
            have := herr e (by omega) he
            simpa [fetch_followings_list_loop, hpf, hf] using this

theorem fetch_followings_list_trace
    (pages : Nat → Except String (BiliPayload (List FollowItem)))
    (max_pages : Nat) :
    ∃ k, k ≤ max_pages ∧
      (fetch_followings_list pages max_pages).1 = List.range' 1 k ∧
      (∀ j, j + 1 < k →
        ∃ fl, page_fetch [] pages (1 + j) = .ok fl ∧ fl ≠ []) ∧
      (∀ e, k ≠ 0 → page_fetch [] pages (1 + (k - 1)) = .error e →
        (fetch_followings_list pages max_pages).2 = .error e) := by
  obtain ⟨k, hk, htr, hcond, herr⟩ :=
    fetch_followings_list_loop_trace pages max_pages 1 [] []
  exact ⟨k, hk, by simpa [fetch_followings_list] using htr, hcond, herr⟩

theorem full_feed_created
    (creator_pages : String → Nat → Except String (BiliPayload (List VideoItem)))
    (cutoff_ts : Int) (fs : List Following) :
    ∀ e ∈ full_feed creator_pages cutoff_ts fs, cutoff_ts ≤ e.created_ts := by
  intro e he
  rw [full_feed, List.mem_insertionSort] at he
  obtain ⟨l, hl, hel⟩ := List.mem_flatten.mp he
  obtain ⟨f, _, rfl⟩ := List.mem_map.mp hl
  exact creator_contribution_created creator_pages cutoff_ts f e hel

/-- Inversion of a successful `fetch_following_updates` run: the lister
succeeded, the statuses are the per-creator statuses in listing order,
and the feed is the sorted merged feed, capped when a limit is given. -/
theorem fetch_following_updates_inv
    (following_pages : Nat → Except String (BiliPayload (List FollowItem)))
    (creator_pages : String → Nat → Except String (BiliPayload (List VideoItem)))
    (now interval_hours : Int) (limit : Option Int) (feed : List FeedEntry)
    (statuses : List Status)
    (hfu : fetch_following_updates following_pages creator_pages now
      interval_hours limit = .ok (feed, statuses)) :
    ∃ fs, (fetch_followings_list following_pages 2).2 = .ok fs ∧
      statuses = fs.map
        (creator_status creator_pages (app_cutoff_ts now interval_hours)) ∧
      ((limit = none ∧
          feed = full_feed creator_pages (app_cutoff_ts now interval_hours) fs) ∨
        (∃ l, limit = some l ∧
          feed = (full_feed creator_pages (app_cutoff_ts now interval_hours)
            fs).take (max l 0).toNat)) := by
  cases hfl : (fetch_followings_list following_pages 2).2 with
  | error e => simp [fetch_following_updates, hfl] at hfu
  | ok fs =>
    refine ⟨fs, rfl, ?_⟩
    cases limit with
    | none =>
      rw [fetch_following_updates_none _ _ _ _ _ hfl] at hfu
      simp only [Except.ok.injEq, Prod.mk.injEq] at hfu
      exact ⟨hfu.2.symm, Or.inl ⟨rfl, hfu.1.symm⟩⟩
    | some l =>
      rw [fetch_following_updates_some _ _ _ _ l _ hfl] at hfu
      simp only [Except.ok.injEq, Prod.mk.injEq] at hfu
      exact ⟨hfu.2.symm, Or.inr ⟨l, rfl, hfu.1.symm⟩⟩

/-- C1: every Video Update returned by `fetch_creator_updates` has
`created_ts` at or after the cutoff — no under-cutoff item is appended,
whatever the items and their ordering on the fetched pages — and hence
every entry of the merged feed of `fetch_following_updates` is at or
after the aggregation cutoff. -/
theorem c1_no_under_cutoff_item
    (pages : Nat → Except String (BiliPayload (List VideoItem)))
    (following_pages : Nat → Except String (BiliPayload (List FollowItem)))
    (creator_pages : String → Nat → Except String (BiliPayload (List VideoItem)))
    (cutoff_ts now interval_hours : Int) (max_pages : Nat)
    (limit : Option Int) (updates : List Update)
    (feed : List FeedEntry) (statuses : List Status)
    (hcu : (fetch_creator_updates pages cutoff_ts max_pages).2 = .ok updates)
    (hfu : fetch_following_updates following_pages creator_pages now
      interval_hours limit = .ok (feed, statuses)) :
    (∀ u ∈ updates, cutoff_ts ≤ u.created_ts) ∧
    (∀ e ∈ feed, app_cutoff_ts now interval_hours ≤ e.created_ts) := by
  refine ⟨fetch_creator_updates_created pages cutoff_ts max_pages updates hcu, ?_⟩
  obtain ⟨fs, _, _, hcases⟩ :=
    fetch_following_updates_inv _ _ _ _ _ _ _ hfu
  intro e he
  rcases hcases with ⟨_, rfl⟩ | ⟨l, _, rfl⟩
  · exact full_feed_created _ _ _ e he
  · exact full_feed_created _ _ _ e (List.take_subset _ _ he)

/-- C2: with no limit, the feed returned by `fetch_following_updates` is
exactly the concatenation of all creators' Video Updates (in listing
order) stably sorted descending by `created_ts`: it is pairwise
descending, and for every timestamp the entries carrying it appear in
their concatenation order. -/
theorem c2_feed_sorted_descending_stable
    (following_pages : Nat → Except String (BiliPayload (List FollowItem)))
    (creator_pages : String → Nat → Except String (BiliPayload (List VideoItem)))
    (now interval_hours : Int) (fs : List Following)
    (feed : List FeedEntry) (statuses : List Status)
    (hfs : (fetch_followings_list following_pages 2).2 = .ok fs)
    (hfu : fetch_following_updates following_pages creator_pages now
      interval_hours none = .ok (feed, statuses)) :
    feed = List.insertionSort feedLE
        ((fs.map (creator_contribution creator_pages
          (app_cutoff_ts now interval_hours))).flatten) ∧
    feed.Pairwise (fun a b => b.created_ts ≤ a.created_ts) ∧
    (∀ k : Int, feed.filter (fun e => decide (e.created_ts = k))
      = ((fs.map (creator_contribution creator_pages
          (app_cutoff_ts now interval_hours))).flatten).filter
            (fun e => decide (e.created_ts = k))) := by
  rw [fetch_following_updates_none _ _ _ _ _ hfs] at hfu
  simp only [Except.ok.injEq, Prod.mk.injEq] at hfu
  obtain ⟨hfeed, -⟩ := hfu
  subst hfeed
  refine ⟨rfl, ?_, ?_⟩
  · exact List.sorted_insertionSort feedLE _
  · intro k
    exact insertionSort_filter_created_ts k _

/-- C9: for every `interval_hours` at most 1 (zero and negative values
included) the cutoff is `now` minus exactly one hour, both in
`fetch_following_updates` (via `app_cutoff_ts`) and in the debug script
(via `debug_cutoff_ts`); consequently `fetch_following_updates` behaves
exactly as with interval 1. -/
theorem c9_interval_clamped_to_one_hour (now hours : Int) (h : hours ≤ 1) :
    app_cutoff_ts now hours = now - 3600 ∧
    debug_cutoff_ts now hours = now - 3600 ∧
    ∀ (following_pages : Nat → Except String (BiliPayload (List FollowItem)))
      (creator_pages : String → Nat → Except String (BiliPayload (List VideoItem)))
      (limit : Option Int),
      fetch_following_updates following_pages creator_pages now hours limit
        = fetch_following_updates following_pages creator_pages now 1 limit := by
  have hmax : max hours 1 = 1 := max_eq_right h
  refine ⟨by simp [app_cutoff_ts, hmax], by simp [debug_cutoff_ts, hmax], ?_⟩
  intro fp cp limit
  have hcut : app_cutoff_ts now hours = app_cutoff_ts now 1 := by
    simp [app_cutoff_ts, hmax]
  unfold fetch_following_updates
  rw [hcut]

/-- Case analysis of the status recorded for one creator. -/
theorem creator_status_spec
    (creator_pages : String → Nat → Except String (BiliPayload (List VideoItem)))
    (cutoff_ts : Int) (f : Following) :
    (creator_status creator_pages cutoff_ts f).creator = f.name ∧
    (creator_status creator_pages cutoff_ts f).creator_mid = f.mid ∧
    ((creator_status creator_pages cutoff_ts f).status = "updated" ∨
      (creator_status creator_pages cutoff_ts f).status = "no_updates" ∨
      (creator_status creator_pages cutoff_ts f).status = "api_failed") ∧
    (∀ e : String,
      (fetch_creator_updates (creator_pages f.mid) cutoff_ts 2).2 = .error e →
      creator_status creator_pages cutoff_ts f
        = ⟨f.name, f.mid, "api_failed", 0⟩) ∧
    (∀ l : List Update,
      (fetch_creator_updates (creator_pages f.mid) cutoff_ts 2).2 = .ok l →
      (l = [] → creator_status creator_pages cutoff_ts f
        = ⟨f.name, f.mid, "no_updates", 0⟩) ∧
      (l ≠ [] → creator_status creator_pages cutoff_ts f
        = ⟨f.name, f.mid, "updated", l.length⟩)) := by
  unfold creator_status
  cases hc : (fetch_creator_updates (creator_pages f.mid) cutoff_ts 2).2 with
  | error e =>
    refine ⟨rfl, rfl, Or.inr (Or.inr rfl), ?_, ?_⟩
    · intro e2 _
      rfl
    · intro l hli
      cases hli
  | ok lst =>
    by_cases hl : lst = []
    · subst hl
      refine ⟨by simp, by simp, Or.inr (Or.inl (by simp)), ?_, ?_⟩
      · intro e2 he
        cases he
      · intro l hli
        cases hli
        constructor
        · intro _
          simp
        · intro hne
          exact absurd rfl hne
    · refine ⟨by simp [hl], by simp [hl], Or.inl (by simp [hl]), ?_, ?_⟩
      · intro e2 he
        cases he
      · intro l hli
        cases hli
        constructor
        · intro h0
          exact absurd h0 hl
        · intro _
          simp [hl]

/-- C3: when one creator's fetch raises, its recorded status is exactly
`api_failed` with count 0, it contributes zero entries to the feed, and
the feed and every other creator's status are exactly those of a run in
which that creator's fetch succeeds with no items; moreover no
per-creator exception ever escapes the loop. -/
theorem c3_api_failure_isolated
    (following_pages : Nat → Except String (BiliPayload (List FollowItem)))
    (cp cp2 : String → Nat → Except String (BiliPayload (List VideoItem)))
    (now interval_hours : Int) (fs : List Following) (j : Nat)
    (fj : Following) (err : String) (feed feed2 : List FeedEntry)
    (sts sts2 : List Status)
    (hfs : (fetch_followings_list following_pages 2).2 = .ok fs)
    (hj : fs[j]? = some fj)
    (hagree : ∀ mid, mid ≠ fj.mid → cp2 mid = cp mid)
    (hfail : (fetch_creator_updates (cp fj.mid)
      (app_cutoff_ts now interval_hours) 2).2 = .error err)
    (hok : (fetch_creator_updates (cp2 fj.mid)
      (app_cutoff_ts now interval_hours) 2).2 = .ok [])
    (hfu : fetch_following_updates following_pages cp now interval_hours none
      = .ok (feed, sts))
    (hfu2 : fetch_following_updates following_pages cp2 now interval_hours none
      = .ok (feed2, sts2)) :
    sts[j]? = some ⟨fj.name, fj.mid, "api_failed", 0⟩ ∧
    sts2[j]? = some ⟨fj.name, fj.mid, "no_updates", 0⟩ ∧
    feed = feed2 ∧
    (∀ (i : Nat) (f : Following), fs[i]? = some f → f.mid ≠ fj.mid →
      sts[i]? = sts2[i]?) ∧
    sts.length = fs.length ∧
    (∀ (cp3 : String → Nat → Except String (BiliPayload (List VideoItem)))
      (limit : Option Int),
      ∃ out, fetch_following_updates following_pages cp3 now interval_hours
        limit = .ok out) := by
  rw [fetch_following_updates_none _ _ _ _ _ hfs] at hfu hfu2
  simp only [Except.ok.injEq, Prod.mk.injEq] at hfu hfu2
  obtain ⟨hfeed, hsts⟩ := hfu
  obtain ⟨hfeed2, hsts2⟩ := hfu2
  subst hfeed hsts hfeed2 hsts2
  have hcontrib : ∀ f : Following,
      creator_contribution cp2 (app_cutoff_ts now interval_hours) f
        = creator_contribution cp (app_cutoff_ts now interval_hours) f := by
    intro f
    by_cases hmid : f.mid = fj.mid
    · unfold creator_contribution
      rw [hmid, hfail, hok]
      simp
    · unfold creator_contribution
      rw [hagree f.mid hmid]
  refine ⟨?_, ?_, ?_, ?_, ?_, ?_⟩
  · simp [List.getElem?_map, hj, creator_status, hfail]
  · simp [List.getElem?_map, hj, creator_status, hok]
  · unfold full_feed
    congr 1
    congr 1
    exact List.map_congr_left fun f _ => (hcontrib f).symm
  · intro i f hif hmid
    simp only [List.getElem?_map, hif, Option.map_some']
    congr 1
    unfold creator_status
    rw [hagree f.mid hmid]
  · simp
  · intro cp3 limit
    exact fetch_following_updates_total _ cp3 _ _ limit fs hfs

/-- C4: a non-negative limit smaller than the number of collected updates
yields exactly that many entries, a prefix of the sorted uncapped feed
(so the cap is applied after sorting), each kept entry at least as recent
as every dropped one, with the status list untouched. -/
theorem c4_result_cap_after_sort
    (following_pages : Nat → Except String (BiliPayload (List FollowItem)))
    (creator_pages : String → Nat → Except String (BiliPayload (List VideoItem)))
    (now interval_hours l : Int) (feed feed0 : List FeedEntry)
    (sts sts0 : List Status)
    (hl0 : 0 ≤ l)
    (hfu0 : fetch_following_updates following_pages creator_pages now
      interval_hours none = .ok (feed0, sts0))
    (hfu : fetch_following_updates following_pages creator_pages now
      interval_hours (some l) = .ok (feed, sts))
    (hlt : l.toNat < feed0.length) :
    feed = feed0.take l.toNat ∧
    feed.length = l.toNat ∧
    sts = sts0 ∧
    (∀ x ∈ feed, ∀ y ∈ feed0.drop l.toNat, y.created_ts ≤ x.created_ts) := by
  obtain ⟨fs0, hfl0, hsts0, hcase0⟩ :=
    fetch_following_updates_inv _ _ _ _ _ _ _ hfu0
  obtain ⟨fs, hfl, hsts, hcase⟩ :=
    fetch_following_updates_inv _ _ _ _ _ _ _ hfu
  rcases hcase0 with ⟨-, hfeed0⟩ | ⟨l2, hl2, -⟩
  · rcases hcase with ⟨hnone, -⟩ | ⟨l2, hl2, hfeed⟩
    · cases hnone
    · have hfs' : fs = fs0 := by
        rw [hfl0] at hfl
        exact (Except.ok.injEq _ _).mp hfl.symm
      subst hfs'
      have hl2' : l = l2 := by
        simpa using hl2
      rw [← hl2'] at hfeed
      have hmax : max l 0 = l := max_eq_left hl0
      rw [hmax] at hfeed
      have hfeed' : feed = feed0.take l.toNat := by rw [hfeed, hfeed0]
      have hsorted : List.Pairwise feedLE feed0 := by
        rw [hfeed0]
        exact List.sorted_insertionSort feedLE _
      have hsplit := List.take_append_drop l.toNat feed0
      rw [← hsplit] at hsorted
      have hpair := (List.pairwise_append.mp hsorted).2.2
      refine ⟨hfeed', ?_, ?_, ?_⟩
      · rw [hfeed', List.length_take]
        omega
      · rw [hsts, hsts0]
      · intro x hx y hy
        exact hpair x (hfeed' ▸ hx) y hy
  · cases hl2

/-- C5: the status list of `fetch_following_updates` has one entry per
followed creator, in listing order, with the status and count dictated by
that creator's fetch outcome: `api_failed`/0 on a raise, `no_updates`/0
on a successful empty fetch, `updated`/number-of-items otherwise. -/
theorem c5_status_list_invariant
    (following_pages : Nat → Except String (BiliPayload (List FollowItem)))
    (creator_pages : String → Nat → Except String (BiliPayload (List VideoItem)))
    (now interval_hours : Int) (limit : Option Int) (fs : List Following)
    (feed : List FeedEntry) (sts : List Status)
    (hfs : (fetch_followings_list following_pages 2).2 = .ok fs)
    (hfu : fetch_following_updates following_pages creator_pages now
      interval_hours limit = .ok (feed, sts)) :
    sts.length = fs.length ∧
    (∀ (i : Nat) (f : Following), fs[i]? = some f → ∃ st, sts[i]? = some st ∧
      st.creator = f.name ∧ st.creator_mid = f.mid ∧
      (st.status = "updated" ∨ st.status = "no_updates" ∨
        st.status = "api_failed") ∧
      (∀ e : String, (fetch_creator_updates (creator_pages f.mid)
          (app_cutoff_ts now interval_hours) 2).2 = .error e →
        st = ⟨f.name, f.mid, "api_failed", 0⟩) ∧
      (∀ l : List Update, (fetch_creator_updates (creator_pages f.mid)
          (app_cutoff_ts now interval_hours) 2).2 = .ok l →
        (l = [] → st = ⟨f.name, f.mid, "no_updates", 0⟩) ∧
        (l ≠ [] → st = ⟨f.name, f.mid, "updated", l.length⟩))) := by
  obtain ⟨fs', hfl', hsts, -⟩ :=
    fetch_following_updates_inv _ _ _ _ _ _ _ hfu
  have hfs' : fs' = fs := by
    rw [hfs] at hfl'
    exact (Except.ok.injEq _ _).mp hfl'.symm
  subst hfs'
  subst hsts
  refine ⟨by simp, ?_⟩
  intro i f hif
  exact ⟨creator_status creator_pages (app_cutoff_ts now interval_hours) f,
    by simp [List.getElem?_map, hif],
    creator_status_spec creator_pages (app_cutoff_ts now interval_hours) f⟩

/-- C6: `fetch_creator_updates` requests consecutive pages starting at
page 1 and at most `max_pages` of them; a further page is requested only
when the current page was fetched successfully, was nonempty, and its
last (oldest, assuming descending order) item was still at or after the
cutoff; within a page, collection stops at the first under-cutoff item. -/
theorem c6_pagination_early_stop
    (pages : Nat → Except String (BiliPayload (List VideoItem)))
    (cutoff_ts : Int) (max_pages : Nat) (tr : List Nat)
    (htr : (fetch_creator_updates pages cutoff_ts max_pages).1 = tr) :
    tr.length ≤ max_pages ∧
    tr = List.range' 1 tr.length ∧
    (∀ p : Nat, 1 ≤ p → (p + 1) ∈ tr →
      ∃ vlist, page_fetch [] pages p = .ok vlist ∧ vlist ≠ [] ∧
        cutoff_ts ≤ last_created vlist) ∧
    (∀ vlist : List VideoItem, collect_page_items cutoff_ts vlist
      = (vlist.takeWhile fun item => decide (cutoff_ts ≤ item.created)).map
          mk_update) := by
  obtain ⟨k, hk, htr', hcond⟩ :=
    fetch_creator_updates_trace pages cutoff_ts max_pages
  subst htr
  rw [htr']
  have hlen : (List.range' 1 k).length = k := List.length_range' ..
  refine ⟨by rw [hlen]; exact hk, by rw [hlen], ?_,
    collect_page_items_eq_takeWhile cutoff_ts⟩
  intro p hp hmem
  rw [List.mem_range'_1] at hmem
  obtain ⟨ha, hb⟩ := hmem
  obtain ⟨vlist, hv1, hv2, hv3⟩ := hcond (p - 1) (by omega)
  have heq : 1 + (p - 1) = p := by omega
  rw [heq] at hv1
  exact ⟨vlist, hv1, hv2, hv3⟩

/-- C7: a creator whose fetch succeeds with zero in-window uploads gets
status exactly `no_updates` with count 0 and contributes no feed
entries: the feed equals the one computed with that creator erased from
the followings list. -/
theorem c7_zero_uploads_no_updates
    (following_pages : Nat → Except String (BiliPayload (List FollowItem)))
    (creator_pages : String → Nat → Except String (BiliPayload (List VideoItem)))
    (now interval_hours : Int) (fs : List Following) (j : Nat)
    (fj : Following) (feed : List FeedEntry) (sts : List Status)
    (hfs : (fetch_followings_list following_pages 2).2 = .ok fs)
    (hj : fs[j]? = some fj)
    (hok : (fetch_creator_updates (creator_pages fj.mid)
      (app_cutoff_ts now interval_hours) 2).2 = .ok [])
    (hfu : fetch_following_updates following_pages creator_pages now
      interval_hours none = .ok (feed, sts)) :
    sts[j]? = some ⟨fj.name, fj.mid, "no_updates", 0⟩ ∧
    feed = List.insertionSort feedLE
      (((fs.eraseIdx j).map (creator_contribution creator_pages
        (app_cutoff_ts now interval_hours))).flatten) := by
  rw [fetch_following_updates_none _ _ _ _ _ hfs] at hfu
  simp only [Except.ok.injEq, Prod.mk.injEq] at hfu
  obtain ⟨hfeed, hsts⟩ := hfu
  subst hfeed
  subst hsts
  constructor
  · simp [List.getElem?_map, hj, creator_status, hok]
  · unfold full_feed
    congr 1
    exact flatten_map_eraseIdx _ fs j fj hj
      (by unfold creator_contribution; rw [hok]; rfl)

/-- C8: `fetch_bili_json` fails exactly when the payload's `code` field
is non-zero — carrying the payload's message, or the default message
when absent — and returns the payload's `data` field on success; and
`fetch_followings_list` requests each page at most once (consecutive
pages from 1, so no retry) and propagates a page failure unchanged. -/
theorem c8_error_policy_and_propagation
    (α : Type) (defaultData : α) (payload : BiliPayload α) (c : Int)
    (pages : Nat → Except String (BiliPayload (List FollowItem)))
    (max_pages : Nat)
    (hcode : payload.code = some c) :
    ((∃ e, fetch_bili_json defaultData payload = .error e) ↔ c ≠ 0) ∧
    (∀ m : String, payload.message = some m → m ≠ "" → c ≠ 0 →
      fetch_bili_json defaultData payload = .error m) ∧
    (payload.message = none → c ≠ 0 →
      fetch_bili_json defaultData payload = .error "请求失败") ∧
    (∀ d : α, payload.data = some d → c = 0 →
      fetch_bili_json defaultData payload = .ok d) ∧
    ((fetch_followings_list pages max_pages).1
      = List.range' 1 (fetch_followings_list pages max_pages).1.length) ∧
    (∀ (p : Nat) (e : String), p ∈ (fetch_followings_list pages max_pages).1 →
      page_fetch [] pages p = .error e →
      (fetch_followings_list pages max_pages).2 = .error e) := by
  obtain ⟨k, hk, htr, hcond, herr⟩ := fetch_followings_list_trace pages max_pages
  have hlen : (List.range' 1 k).length = k := List.length_range' ..
  refine ⟨?_, ?_, ?_, ?_, ?_, ?_⟩
  · constructor
    · rintro ⟨e, he⟩
      intro hc0
      rw [fetch_bili_json, hcode, hc0] at he
      simp at he
    · intro hc0
      rw [fetch_bili_json, hcode]
      rw [if_pos (by simpa using hc0)]
      exact ⟨_, rfl⟩
  · intro m hm hm0 hc0
    rw [fetch_bili_json, hcode, hm]
    rw [if_pos (by simpa using hc0)]
    simp [hm0]
  · intro hm hc0
    rw [fetch_bili_json, hcode, hm]
    rw [if_pos (by simpa using hc0)]
  · intro d hd hc0
    rw [fetch_bili_json, hcode, hd, hc0]
    simp
  · rw [htr, hlen]
  · intro p e hp hpf
    rw [htr, List.mem_range'_1] at hp
    obtain ⟨ha, hb⟩ := hp
    by_cases hlast : p - 1 + 1 < k
    · obtain ⟨fl, hfl, -⟩ := hcond (p - 1) hlast
      rw [show 1 + (p - 1) = p by omega] at hfl
      rw [hpf] at hfl
      cases hfl
    · have hkp : p = 1 + (k - 1) := by omega
      exact herr e (by omega) (by rw [← hkp]; exact hpf)

/-- C10: a negative limit yields an empty feed while the status list is
returned in full, and `fetch_following_updates` returns normally for any
limit value. -/
theorem c10_negative_limit_empty_feed
    (following_pages : Nat → Except String (BiliPayload (List FollowItem)))
    (creator_pages : String → Nat → Except String (BiliPayload (List VideoItem)))
    (now interval_hours l : Int) (fs : List Following)
    (feed feed0 : List FeedEntry) (sts sts0 : List Status)
    (hfs : (fetch_followings_list following_pages 2).2 = .ok fs)
    (hneg : l < 0)
    (hfu : fetch_following_updates following_pages creator_pages now
      interval_hours (some l) = .ok (feed, sts))
    (hfu0 : fetch_following_updates following_pages creator_pages now
      interval_hours none = .ok (feed0, sts0)) :
    feed = [] ∧ sts = sts0 ∧ sts.length = fs.length ∧
    (∀ l2 : Int, ∃ out, fetch_following_updates following_pages creator_pages
      now interval_hours (some l2) = .ok out) := by
  rw [fetch_following_updates_some _ _ _ _ l _ hfs] at hfu
  rw [fetch_following_updates_none _ _ _ _ _ hfs] at hfu0
  simp only [Except.ok.injEq, Prod.mk.injEq] at hfu hfu0
  obtain ⟨hfeed, hsts⟩ := hfu
  obtain ⟨hfeed0, hsts0⟩ := hfu0
  have hmax : max l 0 = 0 := max_eq_right hneg.le
  rw [hmax] at hfeed
  refine ⟨?_, ?_, ?_, ?_⟩
  · rw [← hfeed]
    simp
  · rw [← hsts, ← hsts0]
  · rw [← hsts]
    simp
  · intro l2
    exact fetch_following_updates_total _ _ _ _ (some l2) fs hfs

/-! ### Concrete witnesses

A small scenario mirroring the worked example of the spec: creator `A`
(mid 1) has uploads at 1200 and 900, creator `B` (mid 2) raises on
fetch (or, under the alternate oracle, succeeds with no items); the
cutoff is 1000 (now = 4600, interval 1 hour). -/

instance {ε α : Type} [DecidableEq ε] [DecidableEq α] :
    DecidableEq (Except ε α) := fun a b =>
  match a, b with
  | .error e1, .error e2 =>
    if h : e1 = e2 then isTrue (by rw [h])
    else isFalse (fun hc => h (Except.error.inj hc))
  | .error _, .ok _ => isFalse (fun hc => Except.noConfusion hc)
  | .ok _, .error _ => isFalse (fun hc => Except.noConfusion hc)
  | .ok a1, .ok a2 =>
    if h : a1 = a2 then isTrue (by rw [h])
    else isFalse (fun hc => h (Except.ok.inj hc))

/-- Followings oracle: page 1 lists creators A and B, later pages are
empty. -/
def wit_following_pages : Nat → Except String (BiliPayload (List FollowItem)) :=
  fun page =>
    if page = 1 then
      .ok ⟨some 0, none, some [⟨"A", "1", some 1⟩, ⟨"B", "2", none⟩]⟩
    else .ok ⟨some 0, none, some []⟩

/-- Upload oracle: creator 1 has items at 1200 and 900 on page 1, any
other creator's fetch raises. -/
def wit_creator_pages : String → Nat → Except String (BiliPayload (List VideoItem)) :=
  fun mid page =>
    if mid = "1" then
      if page = 1 then
        .ok ⟨some 0, none, some [⟨1200, "t1", "bv1", "A"⟩, ⟨900, "t2", "bv2", "A"⟩]⟩
      else .ok ⟨some 0, none, some []⟩
    else .error "boom"

/-- Variant of `wit_creator_pages` where creator 2 succeeds with empty
pages instead of raising. -/
def wit_creator_pages2 (mid : String) (page : Nat) :
    Except String (BiliPayload (List VideoItem)) :=
  if mid = "2" then .ok ⟨some 0, none, some []⟩ else wit_creator_pages mid page

/-- The listed followings of the witness scenario. -/
def wit_fs : List Following := [⟨"A", "1", "1"⟩, ⟨"B", "2", "0"⟩]

/-- The single in-window Video Update of creator A. -/
def wit_update : Update :=
  ⟨"t1", 1200, "bv1", "A", "https://www.bilibili.com/video/bv1"⟩

/-- The single feed entry of the witness scenario. -/
def wit_entry : FeedEntry :=
  ⟨"t1", 1200, "bv1", "A", "https://www.bilibili.com/video/bv1", "A", "1", "1"⟩

/-- Statuses when creator B raises. -/
def wit_sts : List Status :=
  [⟨"A", "1", "updated", 1⟩, ⟨"B", "2", "api_failed", 0⟩]

/-- Statuses when creator B succeeds with no items. -/
def wit_sts2 : List Status :=
  [⟨"A", "1", "updated", 1⟩, ⟨"B", "2", "no_updates", 0⟩]

/-- A payload with non-zero code for the C8 witness. -/
def wit_payload : BiliPayload (List FollowItem) := ⟨some 5, some "bad", none⟩

/-- Witness for C1 on the concrete scenario. -/
theorem c1_witness :
    ((fetch_creator_updates (wit_creator_pages "1") 1000 2).2
        = .ok [wit_update] ∧
      fetch_following_updates wit_following_pages wit_creator_pages 4600 1 none
        = .ok ([wit_entry], wit_sts)) ∧
    (∀ u ∈ [wit_update], (1000 : Int) ≤ u.created_ts) ∧
    (∀ e ∈ [wit_entry], app_cutoff_ts 4600 1 ≤ e.created_ts) :=
  ⟨⟨by decide, by decide⟩,
    c1_no_under_cutoff_item (wit_creator_pages "1") wit_following_pages
      wit_creator_pages 1000 4600 1 2 none [wit_update] [wit_entry] wit_sts
      (by decide) (by decide)⟩

/-- Witness for C2 on the concrete scenario. -/
theorem c2_witness :
    ((fetch_followings_list wit_following_pages 2).2 = .ok wit_fs ∧
      fetch_following_updates wit_following_pages wit_creator_pages 4600 1 none
        = .ok ([wit_entry], wit_sts)) ∧
    ([wit_entry] = List.insertionSort feedLE
        ((wit_fs.map (creator_contribution wit_creator_pages
          (app_cutoff_ts 4600 1))).flatten) ∧
      [wit_entry].Pairwise (fun a b => b.created_ts ≤ a.created_ts) ∧
      (∀ k : Int, [wit_entry].filter (fun e => decide (e.created_ts = k))
        = ((wit_fs.map (creator_contribution wit_creator_pages
            (app_cutoff_ts 4600 1))).flatten).filter
              (fun e => decide (e.created_ts = k)))) :=
  ⟨⟨by decide, by decide⟩,
    c2_feed_sorted_descending_stable wit_following_pages wit_creator_pages
      4600 1 wit_fs [wit_entry] wit_sts (by decide) (by decide)⟩

/-- Witness for C3 on the concrete scenario. -/
theorem c3_witness :
    ((fetch_followings_list wit_following_pages 2).2 = .ok wit_fs ∧
      wit_fs[1]? = some ⟨"B", "2", "0"⟩ ∧
      (∀ mid, mid ≠ "2" → wit_creator_pages2 mid = wit_creator_pages mid) ∧
      (fetch_creator_updates (wit_creator_pages "2")
        (app_cutoff_ts 4600 1) 2).2 = .error "boom" ∧
      (fetch_creator_updates (wit_creator_pages2 "2")
        (app_cutoff_ts 4600 1) 2).2 = .ok [] ∧
      fetch_following_updates wit_following_pages wit_creator_pages 4600 1 none
        = .ok ([wit_entry], wit_sts) ∧
      fetch_following_updates wit_following_pages wit_creator_pages2 4600 1 none
        = .ok ([wit_entry], wit_sts2)) ∧
    (wit_sts[1]? = some ⟨"B", "2", "api_failed", 0⟩ ∧
      wit_sts2[1]? = some ⟨"B", "2", "no_updates", 0⟩ ∧
      [wit_entry] = [wit_entry] ∧
      (∀ (i : Nat) (f : Following), wit_fs[i]? = some f → f.mid ≠ "2" →
        wit_sts[i]? = wit_sts2[i]?) ∧
      wit_sts.length = wit_fs.length ∧
      (∀ (cp3 : String → Nat → Except String (BiliPayload (List VideoItem)))
        (limit : Option Int),
        ∃ out, fetch_following_updates wit_following_pages cp3 4600 1 limit
          = .ok out)) :=
  ⟨⟨by decide, by decide,
    by
      intro mid h
      funext page
      unfold wit_creator_pages2
      rw [if_neg h],
    by decide, by decide, by decide, by decide⟩,
    c3_api_failure_isolated wit_following_pages wit_creator_pages
      wit_creator_pages2 4600 1 wit_fs 1 ⟨"B", "2", "0"⟩ "boom" [wit_entry]
      [wit_entry] wit_sts wit_sts2 (by decide) (by decide)
      (by
        intro mid h
        funext page
        unfold wit_creator_pages2
        rw [if_neg h])
      (by decide) (by decide) (by decide) (by decide)⟩

/-- Witness for C4 with limit 0 on the concrete scenario. -/
theorem c4_witness :
    ((0 : Int) ≤ 0 ∧
      fetch_following_updates wit_following_pages wit_creator_pages 4600 1 none
        = .ok ([wit_entry], wit_sts) ∧
      fetch_following_updates wit_following_pages wit_creator_pages 4600 1
        (some 0) = .ok ([], wit_sts) ∧
      (0 : Int).toNat < [wit_entry].length) ∧
    (([] : List FeedEntry) = [wit_entry].take (0 : Int).toNat ∧
      ([] : List FeedEntry).length = (0 : Int).toNat ∧
      wit_sts = wit_sts ∧
      (∀ x ∈ ([] : List FeedEntry), ∀ y ∈ [wit_entry].drop (0 : Int).toNat,
        y.created_ts ≤ x.created_ts)) :=
  ⟨⟨by decide, by decide, by decide, by decide⟩,
    c4_result_cap_after_sort wit_following_pages wit_creator_pages 4600 1 0
      [] [wit_entry] wit_sts wit_sts (by decide) (by decide) (by decide)
      (by decide)⟩

/-- Witness for C5 on the concrete scenario. -/
theorem c5_witness :
    ((fetch_followings_list wit_following_pages 2).2 = .ok wit_fs ∧
      fetch_following_updates wit_following_pages wit_creator_pages 4600 1 none
        = .ok ([wit_entry], wit_sts)) ∧
    (wit_sts.length = wit_fs.length ∧
      (∀ (i : Nat) (f : Following), wit_fs[i]? = some f → ∃ st,
        wit_sts[i]? = some st ∧ st.creator = f.name ∧ st.creator_mid = f.mid ∧
        (st.status = "updated" ∨ st.status = "no_updates" ∨
          st.status = "api_failed") ∧
        (∀ e : String, (fetch_creator_updates (wit_creator_pages f.mid)
            (app_cutoff_ts 4600 1) 2).2 = .error e →
          st = ⟨f.name, f.mid, "api_failed", 0⟩) ∧
        (∀ l : List Update, (fetch_creator_updates (wit_creator_pages f.mid)
            (app_cutoff_ts 4600 1) 2).2 = .ok l →
          (l = [] → st = ⟨f.name, f.mid, "no_updates", 0⟩) ∧
          (l ≠ [] → st = ⟨f.name, f.mid, "updated", l.length⟩)))) :=
  ⟨⟨by decide, by decide⟩,
    c5_status_list_invariant wit_following_pages wit_creator_pages 4600 1 none
      wit_fs [wit_entry] wit_sts (by decide) (by decide)⟩

/-- Witness for C6: the concrete run requests only page 1 because the
page's last item (900) is already under the cutoff (1000). -/
theorem c6_witness :
    (fetch_creator_updates (wit_creator_pages "1") 1000 2).1 = [1] ∧
    (([1] : List Nat).length ≤ 2 ∧
      ([1] : List Nat) = List.range' 1 ([1] : List Nat).length ∧
      (∀ p : Nat, 1 ≤ p → (p + 1) ∈ ([1] : List Nat) →
        ∃ vlist, page_fetch [] (wit_creator_pages "1") p = .ok vlist ∧
          vlist ≠ [] ∧ (1000 : Int) ≤ last_created vlist) ∧
      (∀ vlist : List VideoItem, collect_page_items 1000 vlist
        = (vlist.takeWhile fun item => decide ((1000 : Int) ≤ item.created)).map
            mk_update)) :=
  ⟨by decide,
    c6_pagination_early_stop (wit_creator_pages "1") 1000 2 [1] (by decide)⟩

/-- Witness for C7: under the alternate oracle creator B succeeds with
zero items. -/
theorem c7_witness :
    ((fetch_followings_list wit_following_pages 2).2 = .ok wit_fs ∧
      wit_fs[1]? = some ⟨"B", "2", "0"⟩ ∧
      (fetch_creator_updates (wit_creator_pages2 "2")
        (app_cutoff_ts 4600 1) 2).2 = .ok [] ∧
      fetch_following_updates wit_following_pages wit_creator_pages2 4600 1 none
        = .ok ([wit_entry], wit_sts2)) ∧
    (wit_sts2[1]? = some ⟨"B", "2", "no_updates", 0⟩ ∧
      [wit_entry] = List.insertionSort feedLE
        (((wit_fs.eraseIdx 1).map (creator_contribution wit_creator_pages2
          (app_cutoff_ts 4600 1))).flatten)) :=
  ⟨⟨by decide, by decide, by decide, by decide⟩,
    c7_zero_uploads_no_updates wit_following_pages wit_creator_pages2 4600 1
      wit_fs 1 ⟨"B", "2", "0"⟩ [wit_entry] wit_sts2 (by decide) (by decide)
      (by decide) (by decide)⟩

/-- Witness for C8 on a payload with code 5 and the concrete lister
oracle. -/
theorem c8_witness :
    wit_payload.code = some 5 ∧
    (((∃ e, fetch_bili_json [] wit_payload = .error e) ↔ (5 : Int) ≠ 0) ∧
      (∀ m : String, wit_payload.message = some m → m ≠ "" → (5 : Int) ≠ 0 →
        fetch_bili_json [] wit_payload = .error m) ∧
      (wit_payload.message = none → (5 : Int) ≠ 0 →
        fetch_bili_json [] wit_payload = .error "请求失败") ∧
      (∀ d : List FollowItem, wit_payload.data = some d → (5 : Int) = 0 →
        fetch_bili_json [] wit_payload = .ok d) ∧
      ((fetch_followings_list wit_following_pages 2).1
        = List.range' 1 (fetch_followings_list wit_following_pages 2).1.length) ∧
      (∀ (p : Nat) (e : String),
        p ∈ (fetch_followings_list wit_following_pages 2).1 →
        page_fetch [] wit_following_pages p = .error e →
        (fetch_followings_list wit_following_pages 2).2 = .error e)) :=
  ⟨by decide,
    c8_error_policy_and_propagation (List FollowItem) [] wit_payload 5
      wit_following_pages 2 (by decide)⟩

/-- Witness for C9 at interval 0. -/
theorem c9_witness :
    (0 : Int) ≤ 1 ∧
    (app_cutoff_ts 10000 0 = 10000 - 3600 ∧
      debug_cutoff_ts 10000 0 = 10000 - 3600 ∧
      ∀ (following_pages : Nat → Except String (BiliPayload (List FollowItem)))
        (creator_pages : String → Nat → Except String (BiliPayload (List VideoItem)))
        (limit : Option Int),
        fetch_following_updates following_pages creator_pages 10000 0 limit
          = fetch_following_updates following_pages creator_pages 10000 1 limit) :=
  ⟨by decide, c9_interval_clamped_to_one_hour 10000 0 (by decide)⟩

/-- Witness for C10 at limit -3. -/
theorem c10_witness :
    ((fetch_followings_list wit_following_pages 2).2 = .ok wit_fs ∧
      (-3 : Int) < 0 ∧
      fetch_following_updates wit_following_pages wit_creator_pages 4600 1
        (some (-3)) = .ok ([], wit_sts) ∧
      fetch_following_updates wit_following_pages wit_creator_pages 4600 1 none
        = .ok ([wit_entry], wit_sts)) ∧
    (([] : List FeedEntry) = [] ∧ wit_sts = wit_sts ∧
      wit_sts.length = wit_fs.length ∧
      (∀ l2 : Int, ∃ out, fetch_following_updates wit_following_pages
        wit_creator_pages 4600 1 (some l2) = .ok out)) :=
  ⟨⟨by decide, by decide, by decide, by decide⟩,
    c10_negative_limit_empty_feed wit_following_pages wit_creator_pages 4600 1
      (-3) wit_fs [] [wit_entry] wit_sts wit_sts (by decide) (by decide)
      (by decide) (by decide)⟩

end BilibiliHelper
